import Mathlib

/-!
Verification development for a userspace RCU (Read-Copy-Update) core:
an RCU manager (per-thread grace-period counters, reader lock fast paths,
a synchronize barrier), a deferred-reclamation worker, and a reference
lock-free stack built on them.

The embedding below translates the relevant C++ functions into pure Lean
functions. Machine words (std::uint64_t) are modelled as natural numbers
with explicit reduction modulo 2 ^ 64 wherever the C++ arithmetic can
wrap. Loops are modelled by structural recursion over the finite list of
values the loop observes (its oracle), and system calls by an oracle
record of their return values.
-/

/-- Top-bit mask of the per-thread counter: the grace-period snapshot bit.
Source: GP_COUNTER_MASK = 1ULL << 63 in RCU.hh. -/
def GP_COUNTER_MASK : Nat := 1 <<< 63

/-- Mask of the nesting-depth bits of the per-thread counter: the 64-bit
complement of GP_COUNTER_MASK. Source: NESTING_MASK = ~GP_COUNTER_MASK
in RCU.hh, taken inside 64 bits. -/
def NESTING_MASK : Nat := (2 ^ 64 - 1) ^^^ GP_COUNTER_MASK

namespace RcuManager

/-- Effect of RcuManager::readLock on the calling thread's counter.
Argument c is the loaded thread-local counter, g the loaded global
grace-period word. If the nesting bits of c are zero the global word is
stored verbatim; otherwise the counter is incremented by one (uint64
wrap-around made explicit). Source: RCU.hh lines 105-127. -/
def readLock (c g : Nat) : Nat :=
  if c &&& NESTING_MASK = 0 then g else (c + 1) % 2 ^ 64

/-- Effect of RcuManager::readUnlock on the calling thread's counter:
an unconditional uint64 decrement (wrap-around made explicit).
Source: RCU.hh lines 130-144. -/
def readUnlock (c : Nat) : Nat :=
  (c + (2 ^ 64 - 1)) % 2 ^ 64

/-- Effect on the global grace-period word of the store performed at the
top of RcuManager::toggleAndWaitForThreads: XOR with the top-bit mask.
Source: RCU.cc lines 121-125. -/
def toggleGP (g : Nat) : Nat := g ^^^ GP_COUNTER_MASK

/-- Break condition of the polling loop in
RcuManager::toggleAndWaitForThreads, applied to one observed per-thread
counter value entryGP against the freshly stored global word newGP: the
loop stops waiting on the thread when the nesting bits are zero, or when
the top bit of the counter equals the top bit of the global word.
Source: RCU.cc lines 128-136. -/
def pollBreak (entryGP newGP : Nat) : Bool :=
  entryGP &&& NESTING_MASK == 0 ||
    (entryGP &&& GP_COUNTER_MASK) == (newGP &&& GP_COUNTER_MASK)

/-- The polling loop of toggleAndWaitForThreads for a single registered
thread, run against the list of counter values the loop observes (one
per poll). Returns true if some observation lets the loop break, false
if the loop is still polling after consuming every observation.
Source: RCU.cc lines 128-136. -/
def waitLoop (newGP : Nat) : List Nat → Bool
  | [] => false
  | c :: rest => if pollBreak c newGP then true else waitLoop newGP rest

/-- Net effect of RcuManager::synchronize on the global grace-period
word: the two toggleAndWaitForThreads calls each toggle the top bit
once, and nothing else in synchronize writes it.
Source: RCU.cc lines 82-105. -/
def synchronizeGP (g : Nat) : Nat := toggleGP (toggleGP g)

/-- The sequence of values stored to the global grace-period word during
one synchronize call, starting from value g: one store per
toggleAndWaitForThreads call. Source: RCU.cc lines 99-101 and 121-125. -/
def synchronizeGPStores (g : Nat) : List Nat :=
  [toggleGP g, toggleGP (toggleGP g)]

/-- Values the global grace-period word can hold: it is initialized to 1
by the RcuManager constructor (RCU.hh line 46) and its only mutation is
the top-bit toggle in toggleAndWaitForThreads (RCU.cc lines 121-125). -/
inductive GPReachable : Nat → Prop
  | init : GPReachable 1
  | toggle (g : Nat) : GPReachable g → GPReachable (toggleGP g)

/-- Capability bit of the expedited private membarrier command,
MEMBARRIER_CMD_PRIVATE_EXPEDITED = 1 << 3 from linux/membarrier.h. -/
def MEMBARRIER_CMD_PRIVATE_EXPEDITED : Nat := 1 <<< 3

/-- Capability bit of the command registering intent to use expedited
private membarriers, MEMBARRIER_CMD_REGISTER_PRIVATE_EXPEDITED = 1 << 4
from linux/membarrier.h. -/
def MEMBARRIER_CMD_REGISTER_PRIVATE_EXPEDITED : Nat := 1 <<< 4

/-- Oracle for the three membarrier system calls issued by
RcuManager::registerCurrentProcess, in program order: the capability
query, the registration call, and the single test barrier. Each field is
the raw int return value of that call. -/
structure MembarrierOracle where
  queryRet : Int
  registerRet : Int
  barrierRet : Int

/-- RcuManager::registerCurrentProcess, with the membarrier system call
replaced by the oracle. Mirrors the source control flow: fail if the
query returns negative, fail if either required command bit is missing
from the reported mask, fail if registration returns negative, fail if
the test barrier returns negative, and succeed otherwise.
Source: RCU.cc lines 27-63. -/
def registerCurrentProcess (o : MembarrierOracle) : Bool :=
  if o.queryRet < 0 then false
  else if o.queryRet.toNat &&& MEMBARRIER_CMD_REGISTER_PRIVATE_EXPEDITED = 0 then false
  else if o.queryRet.toNat &&& MEMBARRIER_CMD_PRIVATE_EXPEDITED = 0 then false
  else if o.registerRet < 0 then false
  else if o.barrierRet < 0 then false
  else true

end RcuManager

namespace GarbageCollector

/-- Oracle for one iteration of the inner do-while loop in
GarbageCollector::gcLoop: the intake head value observed by the load
(none models nullptr, some n a node), and whether the weak
compare-exchange of head to null succeeds on that iteration. -/
structure GcPollStep where
  observedHead : Option Nat
  casSuccess : Bool

/-- The inner do-while loop of GarbageCollector::gcLoop, run against the
list of per-iteration oracle steps. Returns the number of readLock
calls, the number of readUnlock calls, and the captured head when the
loop exited (some none: exited via the break on a null head; some
(some n): exited after a successful CAS detached the list headed by n;
none: the oracle ran out with the loop still retrying). Each iteration
calls readLock, loads the head, breaks out of the loop if the head is
null, otherwise attempts the CAS and calls readUnlock before testing the
loop condition. Source: RCU.hh lines 268-281. -/
def gcInner : List GcPollStep → Nat × Nat × Option (Option Nat)
  | [] => (0, 0, none)
  | step :: rest =>
    match step.observedHead with
    | none => (1, 0, some none)
    | some h =>
      if step.casSuccess then (1, 1, some (some h))
      else
        let r := gcInner rest
        (r.1 + 1, r.2.1 + 1, r.2.2)

end GarbageCollector

namespace RcuList

/-- Node data reachable from the list head, front of the Lean list being
the stack top. The single-threaded embedding of RcuList from
RcuList.hh: each RcuListNode holds a uint64 data field and a next
pointer, so the heap structure reachable from head is exactly a list of
data values. -/
abbrev St := List Nat

/-- RcuList::push for a single thread: the CAS loop succeeds on the
first attempt, splicing a fresh node holding data onto the head.
Source: RcuList.hh lines 65-82. -/
def push (s : St) (data : Nat) : St := data :: s

/-- RcuList::search traversal: walk next pointers from the head and
return true on the first node whose data field matches.
Source: RcuList.hh lines 84-99. -/
def search : St → Nat → Bool
  | [], _ => false
  | c :: rest, data => if c = data then true else search rest data

/-- RcuList::pop for a single thread: if the head is null return the
sentinel 0xDEAD and leave the list unchanged; otherwise the CAS detaches
the head node on the first attempt and the node's data is returned. The
third component is the value of the condition of the
assert(!search(manager, oldHead->data)) executed after a successful CAS
(true means the assertion passes). Source: RcuList.hh lines 23-63. -/
def pop (s : St) : Nat × St × Bool :=
  match s with
  | [] => (0xDEAD, [], true)
  | h :: t => (h, t, !search t h)

/-- A single-threaded client operation on the list. -/
inductive Op
  | push (data : Nat)
  | pop

/-- Run a single-threaded sequence of push and pop operations from state
s. Returns the final state, the list of values returned by the pops in
order, and whether every assertion executed by a pop passed. -/
def run (s : St) : List Op → St × List Nat × Bool
  | [] => (s, [], true)
  | Op.push d :: rest => run (push s d) rest
  | Op.pop :: rest =>
    let p := pop s
    let r := run p.2.1 rest
    (r.1, p.1 :: r.2.1, p.2.2 && r.2.2)

/-- The push sequence of the insert-and-search scenario: push 0, 1, 2, 3
onto an empty stack. -/
def scenarioPushes : List Op := [Op.push 0, Op.push 1, Op.push 2, Op.push 3]

/-- List state after the scenario pushes. -/
def scenarioState : St := (run [] scenarioPushes).1

end RcuList

namespace RcuManager

/-- The nesting mask is the low 63 bits. -/
theorem nesting_mask_eq : NESTING_MASK = 2 ^ 63 - 1 := by decide

/-- Masking a counter with NESTING_MASK extracts its value modulo 2 ^ 63. -/
theorem and_nesting_mask (c : Nat) : c &&& NESTING_MASK = c % 2 ^ 63 := by
  rw [nesting_mask_eq]
  exact Nat.and_pow_two_sub_one_eq_mod c 63

/-- Masking with GP_COUNTER_MASK extracts bit 63. -/
theorem and_gp_mask (c : Nat) :
    c &&& GP_COUNTER_MASK = (c.testBit 63).toNat * 2 ^ 63 := by
  have h : GP_COUNTER_MASK = 2 ^ 63 := by decide
  rw [h]
  exact Nat.and_two_pow c 63

/-- Two counters agree on the GP_COUNTER_MASK bits exactly when their
top bits agree. -/
theorem and_gp_mask_eq_iff (c g : Nat) :
    (c &&& GP_COUNTER_MASK = g &&& GP_COUNTER_MASK) ↔
      c.testBit 63 = g.testBit 63 := by
  rw [and_gp_mask, and_gp_mask]
  cases hc : c.testBit 63 <;> cases hg : g.testBit 63 <;> simp

/-- Decrement of a nonzero 64-bit word, as wrapped in readUnlock. -/
theorem readUnlock_eq_sub_one {c : Nat} (h1 : 1 ≤ c) (h2 : c < 2 ^ 64) :
    readUnlock c = c - 1 := by
  unfold readUnlock
  have h : c + (2 ^ 64 - 1) = (c - 1) + 2 ^ 64 := by omega
  rw [h, Nat.add_mod_right]
  exact Nat.mod_eq_of_lt (by omega)

/-- Reachable values of the global grace-period word are 1 and
2 ^ 63 + 1. -/
theorem gpReachable_cases {g : Nat} (h : GPReachable g) :
    g = 1 ∨ g = 2 ^ 63 + 1 := by
  induction h with
  | init => exact Or.inl rfl
  | toggle g _ ih =>
    cases ih with
    | inl h1 => subst h1; right; decide
    | inr h1 => subst h1; left; decide

/-- Claim C2: for a thread-local counter value c below 2 ^ 64 and any
global grace-period word g, readLock stores g verbatim exactly when the
nesting bits of c are zero and stores c + 1 (mod 2 ^ 64) otherwise,
while readUnlock stores c - 1 unconditionally, wrapping to 2 ^ 64 - 1 at
c = 0 because there is no guard against zero nesting. -/
theorem readLock_readUnlock_behavior (c g : Nat) (hc : c < 2 ^ 64) :
    (c % 2 ^ 63 = 0 → readLock c g = g) ∧
    (c % 2 ^ 63 ≠ 0 → readLock c g = (c + 1) % 2 ^ 64) ∧
    (1 ≤ c → readUnlock c = c - 1) ∧
    readUnlock 0 = 2 ^ 64 - 1 := by
  refine ⟨?_, ?_, ?_, ?_⟩
  · intro h
    unfold readLock
    rw [and_nesting_mask, if_pos h]
  · intro h
    unfold readLock
    rw [and_nesting_mask, if_neg h]
  · intro h
    exact readUnlock_eq_sub_one h hc
  · decide

/-- Witness for C2 at c = 5, g = 1. -/
theorem readLock_readUnlock_behavior_witness :
    (5 % 2 ^ 63 = 0 → readLock 5 1 = 1) ∧
    (5 % 2 ^ 63 ≠ 0 → readLock 5 1 = (5 + 1) % 2 ^ 64) ∧
    (1 ≤ 5 → readUnlock 5 = 5 - 1) ∧
    readUnlock 0 = 2 ^ 64 - 1 :=
  readLock_readUnlock_behavior 5 1 (by decide)

/-- Claim C3: synchronize writes the global grace-period word exactly
twice, once per toggleAndWaitForThreads call, each write toggling the
top bit; the toggle is an involution, so the word when synchronize
returns equals its value on entry. -/
theorem synchronize_restores_global (g : Nat) :
    synchronizeGPStores g = [toggleGP g, toggleGP (toggleGP g)] ∧
    (synchronizeGPStores g).length = 2 ∧
    (∀ x : Nat, toggleGP (toggleGP x) = x) ∧
    synchronizeGP g = g := by
  have invol : ∀ x : Nat, toggleGP (toggleGP x) = x := by
    intro x
    unfold toggleGP
    rw [Nat.xor_assoc, Nat.xor_self, Nat.xor_zero]
  exact ⟨rfl, rfl, invol, invol g⟩

/-- Claim C6: any reachable value of the global grace-period word (it is
initialized to 1 and mutated only by the top-bit toggle) has a 1 in its
low bit, and an outermost readLock, storing that word verbatim, installs
nesting depth exactly 1. -/
theorem global_low_bit_one (g c : Nat) (hg : GPReachable g)
    (hc : c &&& NESTING_MASK = 0) :
    g % 2 = 1 ∧ readLock c g &&& NESTING_MASK = 1 := by
  have hlock : readLock c g = g := by
    unfold readLock
    rw [if_pos hc]
  rw [hlock]
  cases gpReachable_cases hg with
  | inl h => subst h; exact ⟨by decide, by decide⟩
  | inr h => subst h; exact ⟨by decide, by decide⟩

/-- Witness for C6 at g = 1 (the initial global word), c = 0 (a freshly
registered thread). -/
theorem global_low_bit_one_witness :
    (1 : Nat) % 2 = 1 ∧ readLock 0 1 &&& NESTING_MASK = 1 :=
  global_low_bit_one 1 0 GPReachable.init (by decide)

/-- For a 64-bit counter, the low 63 bits vanish exactly when every bit
other than the top bit is clear. -/
theorem mod_two_pow_63_eq_zero_iff {c : Nat} (hc : c < 2 ^ 64) :
    c % 2 ^ 63 = 0 ↔ ∀ i, i ≠ 63 → c.testBit i = false := by
  constructor
  · intro h i hi
    have hdiv : c = 2 ^ 63 * (c / 2 ^ 63) := by
      conv_lhs => rw [← Nat.div_add_mod c (2 ^ 63)]
      rw [h, Nat.add_zero]
    have hq : c / 2 ^ 63 < 2 := by
      apply Nat.div_lt_of_lt_mul
      omega
    interval_cases h2 : c / 2 ^ 63
    · have : c = 0 := by omega
      rw [this]
      exact Nat.zero_testBit i
    · have : c = 2 ^ 63 := by omega
      rw [this, Nat.testBit_two_pow]
      simp only [decide_eq_false_iff_not]
      omega
  · intro h
    have : ∀ i, (c % 2 ^ 63).testBit i = Nat.testBit 0 i := by
      intro i
      rw [Nat.testBit_mod_two_pow, Nat.zero_testBit]
      by_cases hi : i < 63
      · rw [h i (by omega)]
        simp
      · simp [hi]
    exact Nat.eq_of_testBit_eq this

/-- Claim C1: in the flip-and-wait phase, the polling loop stops waiting
on a thread at an observed counter value c exactly when all bits of c
except the top bit are zero (the thread is quiescent) or the top bit of
c equals the top bit of the freshly toggled global grace-period word;
while neither condition holds at the head observation, the loop keeps
polling (its outcome is that of the remaining observations). -/
theorem toggleAndWait_wait_predicate (g c : Nat) (rest : List Nat)
    (hc : c < 2 ^ 64) :
    (pollBreak c (toggleGP g) = true ↔
      ((∀ i, i ≠ 63 → c.testBit i = false) ∨
        c.testBit 63 = (toggleGP g).testBit 63)) ∧
    (pollBreak c (toggleGP g) = false →
      waitLoop (toggleGP g) (c :: rest) = waitLoop (toggleGP g) rest) ∧
    (pollBreak c (toggleGP g) = true →
      waitLoop (toggleGP g) (c :: rest) = true) := by
  refine ⟨?_, ?_, ?_⟩
  · unfold pollBreak
    rw [Bool.or_eq_true, beq_iff_eq, beq_iff_eq, and_nesting_mask,
      and_gp_mask_eq_iff, mod_two_pow_63_eq_zero_iff hc]
  · intro h
    simp [waitLoop, h]
  · intro h
    simp [waitLoop, h]

/-- Witness for C1 at g = 1, a quiescent observed counter c = 0 and an
empty remaining observation list. -/
theorem toggleAndWait_wait_predicate_witness :
    (pollBreak 0 (toggleGP 1) = true ↔
      ((∀ i, i ≠ 63 → Nat.testBit 0 i = false) ∨
        Nat.testBit 0 63 = (toggleGP 1).testBit 63)) ∧
    (pollBreak 0 (toggleGP 1) = false →
      waitLoop (toggleGP 1) [0] = waitLoop (toggleGP 1) []) ∧
    (pollBreak 0 (toggleGP 1) = true → waitLoop (toggleGP 1) [0] = true) :=
  toggleAndWait_wait_predicate 1 0 [] (by decide)

/-- Counterexample to claim C5 as stated: at counter value 2 ^ 63 - 1
the nesting bits are nonzero, so the readLock takes the nested branch,
yet its increment carries out of the nesting field into the top bit and
changes the grace-period bit. -/
theorem gp_bit_frame_counterexample :
    (2 ^ 63 - 1) &&& NESTING_MASK ≠ 0 ∧
    ¬((readLock (2 ^ 63 - 1) 1).testBit 63 = Nat.testBit (2 ^ 63 - 1) 63) := by
  decide

/-- Claim C5 (amended): for a 64-bit counter c, an outermost readLock
sets the top bit of the counter to the observed global top bit; a nested
readLock leaves the top bit unchanged provided the nesting field is not
saturated (so the increment cannot carry into the top bit); and a
readUnlock performed with nonzero nesting leaves the top bit
unchanged. -/
theorem gp_bit_frame (c g : Nat) (hc : c < 2 ^ 64) :
    (c &&& NESTING_MASK = 0 → (readLock c g).testBit 63 = g.testBit 63) ∧
    (c &&& NESTING_MASK ≠ 0 → c &&& NESTING_MASK ≠ NESTING_MASK →
      (readLock c g).testBit 63 = c.testBit 63) ∧
    (c &&& NESTING_MASK ≠ 0 → (readUnlock c).testBit 63 = c.testBit 63) := by
  have hp63 : (2 : Nat) ^ 63 = 9223372036854775808 := by norm_num
  have hp64 : (2 : Nat) ^ 64 = 18446744073709551616 := by norm_num
  refine ⟨?_, ?_, ?_⟩
  · intro h
    unfold readLock
    rw [if_pos h]
  · intro h0 hfull
    rw [and_nesting_mask] at h0
    rw [and_nesting_mask, nesting_mask_eq] at hfull
    unfold readLock
    rw [and_nesting_mask, if_neg h0]
    rw [hp63] at h0 hfull
    rw [hp64] at hc ⊢
    have hlt : c + 1 < 18446744073709551616 := by omega
    rw [Nat.mod_eq_of_lt hlt, Nat.testBit_to_div_mod, Nat.testBit_to_div_mod,
      hp63]
    have hdiv : (c + 1) / 9223372036854775808 = c / 9223372036854775808 := by
      omega
    rw [hdiv]
  · intro h0
    rw [and_nesting_mask] at h0
    have h1 : 1 ≤ c := by
      rcases Nat.eq_zero_or_pos c with h | h
      · subst h; simp at h0
      · exact h
    rw [readUnlock_eq_sub_one h1 hc, Nat.testBit_to_div_mod,
      Nat.testBit_to_div_mod, hp63]
    rw [hp63] at h0
    have hdiv : (c - 1) / 9223372036854775808 = c / 9223372036854775808 := by
      omega
    rw [hdiv]

/-- Witness for the amended C5 at c = 5, g = 1. -/
theorem gp_bit_frame_witness :
    (5 &&& NESTING_MASK = 0 → (readLock 5 1).testBit 63 = Nat.testBit 1 63) ∧
    (5 &&& NESTING_MASK ≠ 0 → 5 &&& NESTING_MASK ≠ NESTING_MASK →
      (readLock 5 1).testBit 63 = Nat.testBit 5 63) ∧
    (5 &&& NESTING_MASK ≠ 0 → (readUnlock 5).testBit 63 = Nat.testBit 5 63) :=
  gp_bit_frame 5 1 (by decide)

/-- Claim C9: when the outer readLock leaves the counter with nonzero
nesting bits, the nested readLock paired with its matching readUnlock
restores the counter to exactly its value before the nested readLock,
and hence the sequence lock, lock, unlock, unlock produces the same
counter trajectory after the inner pair as lock, unlock alone. -/
theorem nested_pair_identity (c g g2 : Nat) (_hc : c < 2 ^ 64)
    (hg : g < 2 ^ 64) (h : readLock c g &&& NESTING_MASK ≠ 0) :
    readUnlock (readLock (readLock c g) g2) = readLock c g ∧
    readUnlock (readUnlock (readLock (readLock c g) g2)) =
      readUnlock (readLock c g) := by
  have hp64 : (2 : Nat) ^ 64 = 18446744073709551616 := by norm_num
  have hlt : readLock c g < 2 ^ 64 := by
    unfold readLock
    split
    · exact hg
    · exact Nat.mod_lt _ (by norm_num)
  have key : readUnlock (readLock (readLock c g) g2) = readLock c g := by
    conv_lhs => rw [readLock, if_neg h]
    unfold readUnlock
    rw [Nat.mod_add_mod]
    rw [hp64] at hlt ⊢
    have heq : readLock c g + 1 + (18446744073709551616 - 1) =
        readLock c g + 18446744073709551616 := by omega
    rw [heq, Nat.add_mod_right]
    exact Nat.mod_eq_of_lt hlt
  exact ⟨key, by rw [key]⟩

/-- Witness for C9 at c = 0, g = 1, inner global word 1: the outer lock
stores 1 (nesting one), the nested lock bumps the counter to 2, and the
inner unlock restores 1. -/
theorem nested_pair_identity_witness :
    readUnlock (readLock (readLock 0 1) 1) = readLock 0 1 ∧
    readUnlock (readUnlock (readLock (readLock 0 1) 1)) =
      readUnlock (readLock 0 1) :=
  nested_pair_identity 0 1 1 (by decide) (by decide) (by decide)

/-- Masking with a single bit vanishes exactly when that bit is clear. -/
theorem and_two_pow_eq_zero_iff (n i : Nat) :
    n &&& 2 ^ i = 0 ↔ n.testBit i = false := by
  rw [Nat.and_two_pow]
  cases h : n.testBit i <;> simp [Nat.pos_iff_ne_zero.mp (Nat.two_pow_pos i)]

/-- Masking with 16 vanishes exactly when bit 4 is clear. -/
theorem and_sixteen_eq_zero_iff (n : Nat) :
    n &&& 16 = 0 ↔ n.testBit 4 = false := by
  have h : (16 : Nat) = 2 ^ 4 := by norm_num
  rw [h]
  exact and_two_pow_eq_zero_iff n 4

/-- Masking with 8 vanishes exactly when bit 3 is clear. -/
theorem and_eight_eq_zero_iff (n : Nat) :
    n &&& 8 = 0 ↔ n.testBit 3 = false := by
  have h : (8 : Nat) = 2 ^ 3 := by norm_num
  rw [h]
  exact and_two_pow_eq_zero_iff n 3

/-- Claim C7: registerCurrentProcess reports failure exactly when the
membarrier capability query returns negative, or the reported mask lacks
the register-private-expedited bit, or it lacks the private-expedited
bit, or the registration call returns negative, or the single test
barrier returns negative; in every other case it reports success. -/
theorem registerCurrentProcess_false_iff (o : MembarrierOracle) :
    registerCurrentProcess o = false ↔
      (o.queryRet < 0 ∨
        o.queryRet.toNat.testBit 4 = false ∨
        o.queryRet.toNat.testBit 3 = false ∨
        o.registerRet < 0 ∨
        o.barrierRet < 0) := by
  unfold registerCurrentProcess
  have h16 : MEMBARRIER_CMD_REGISTER_PRIVATE_EXPEDITED = 16 := by decide
  have h8 : MEMBARRIER_CMD_PRIVATE_EXPEDITED = 8 := by decide
  rw [h16, h8]
  split_ifs with h1 h2 h3 h4 h5 <;>
    simp_all [and_sixteen_eq_zero_iff, and_eight_eq_zero_iff]

end RcuManager

/-- Claim C4 evaluated on the code: an inner-loop iteration of gcLoop
that observes a null intake head exits via break having performed one
readLock and zero readUnlock calls, leaving the worker holding a reader
lock when it sleeps, whereas an iteration whose CAS succeeds performs
one readLock and one readUnlock. -/
theorem gcLoop_leaks_readLock_on_empty :
    GarbageCollector.gcInner [⟨none, true⟩] = (1, 0, some none) ∧
    GarbageCollector.gcInner [⟨some 7, true⟩] = (1, 1, some (some 7)) ∧
    (GarbageCollector.gcInner [⟨none, true⟩]).1 ≠
      (GarbageCollector.gcInner [⟨none, true⟩]).2.1 := by
  decide

/-- Claim C8: after pushing 0, 1, 2, 3 onto an empty reference stack,
search finds each of 0..3 and none of 4..7; four pops return 3, 2, 1, 0
in order and empty the stack; and any number of further pops on the
empty stack each return the sentinel 0xDEAD. -/
theorem stack_push_pop_scenario :
    RcuList.search RcuList.scenarioState 0 = true ∧
    RcuList.search RcuList.scenarioState 1 = true ∧
    RcuList.search RcuList.scenarioState 2 = true ∧
    RcuList.search RcuList.scenarioState 3 = true ∧
    RcuList.search RcuList.scenarioState 4 = false ∧
    RcuList.search RcuList.scenarioState 5 = false ∧
    RcuList.search RcuList.scenarioState 6 = false ∧
    RcuList.search RcuList.scenarioState 7 = false ∧
    (RcuList.run RcuList.scenarioState
      [RcuList.Op.pop, RcuList.Op.pop, RcuList.Op.pop, RcuList.Op.pop]).2.1 =
      [3, 2, 1, 0] ∧
    (RcuList.run RcuList.scenarioState
      [RcuList.Op.pop, RcuList.Op.pop, RcuList.Op.pop, RcuList.Op.pop]).1 =
      [] ∧
    (∀ k : Nat, (RcuList.run [] (List.replicate k RcuList.Op.pop)).2.1 =
      List.replicate k 0xDEAD) := by
  have hk : ∀ k : Nat,
      (RcuList.run [] (List.replicate k RcuList.Op.pop)).2.1 =
        List.replicate k 0xDEAD := by
    intro k
    induction k with
    | zero => rfl
    | succ n ih => simp [List.replicate_succ, RcuList.run, RcuList.pop, ih]
  exact ⟨by decide, by decide, by decide, by decide, by decide, by decide,
    by decide, by decide, by decide, by decide, hk⟩

/-- Claim C10 evaluated on the code: in the single-threaded run push 5,
push 5, pop, the pop detaches the first node holding 5 while the second
node holding 5 is still in the list, so search still finds 5 and the
assertion in pop fails (the run's assertion flag is false). -/
theorem pop_assert_fails_on_duplicate :
    (RcuList.run [] [RcuList.Op.push 5, RcuList.Op.push 5,
      RcuList.Op.pop]).2.2 = false ∧
    (RcuList.run [] [RcuList.Op.push 5, RcuList.Op.push 5,
      RcuList.Op.pop]).2.1 = [5] ∧
    RcuList.search [5] 5 = true := by
  decide

